import Mathlib

/-!
Verification development for the LLM question-answering repository:
a command-line variant (source file `LLM_QA_CLI.py`, class
`LLMQuestionAnswering`) and a Flask web variant (source file `app.py`).

Modelling conventions.
Python strings are modelled as `String` or `List Char`; Python dicts
parsed from JSON are modelled as association lists keyed by `String`
over a JSON value type `JValue`.  Python's dynamic operations
(attribute access, subscripting, `in`), which may raise, are modelled
in the `Except String` monad; the `String` carried by an exception is
an abstraction of the interpreter's message text.  The regex classes
`\w` and `\s` and `str.lower()` are modelled at their ASCII meaning.
Console printing (observability only) is not modelled.
-/

/-- Python whitespace for `str.strip()` and `str.split()` (ASCII scope):
space, tab, newline, carriage return, vertical tab, form feed. -/
def isPySpace (c : Char) : Bool :=
  decide (c.toNat = 32 ∨ c.toNat = 9 ∨ c.toNat = 10 ∨ c.toNat = 13 ∨
          c.toNat = 11 ∨ c.toNat = 12)

/-- The regex class `\w` (ASCII scope): letters, digits, underscore. -/
def isPyWord (c : Char) : Bool :=
  decide ((65 ≤ c.toNat ∧ c.toNat ≤ 90) ∨ (97 ≤ c.toNat ∧ c.toNat ≤ 122) ∨
          (48 ≤ c.toNat ∧ c.toNat ≤ 57) ∨ c.toNat = 95)

/-- Characters kept by the CLI normalizer,
from `re.sub(r'[^\w\s\?.,!+\-*/]', '', processed)` in `LLM_QA_CLI.py`. -/
def allowedCLI (c : Char) : Bool :=
  isPyWord c || isPySpace c ||
  decide (c = '?' ∨ c = '.' ∨ c = ',' ∨ c = '!' ∨
          c = '+' ∨ c = '-' ∨ c = '*' ∨ c = '/')

/-- Characters kept by the web normalizer,
from `re.sub(r'[^\w\s\?.,!-]', '', processed)` in `app.py`. -/
def allowedWeb (c : Char) : Bool :=
  isPyWord c || isPySpace c ||
  decide (c = '?' ∨ c = '.' ∨ c = ',' ∨ c = '!' ∨ c = '-')

/-- Python `str.strip()`: remove whitespace from both ends. -/
def stripL (l : List Char) : List Char :=
  ((l.dropWhile isPySpace).reverse.dropWhile isPySpace).reverse

/-- Python `str.strip()` on `String`. -/
def stripStr (s : String) : String := ⟨stripL s.data⟩

/-- Worker for Python `str.split()` with no separator; `acc` holds the
current word, reversed. -/
def splitWsAux : List Char → List Char → List (List Char)
  | [], acc => if acc.isEmpty then [] else [acc.reverse]
  | c :: cs, acc =>
    if isPySpace c then
      if acc.isEmpty then splitWsAux cs [] else acc.reverse :: splitWsAux cs []
    else splitWsAux cs (c :: acc)

/-- Python `str.split()` with no separator: split on runs of whitespace,
discarding empty pieces. -/
def splitWs (l : List Char) : List (List Char) := splitWsAux l []

/-- Python `' '.join(words)`. -/
def joinSp : List (List Char) → List Char
  | [] => []
  | [w] => w
  | w :: ws => w ++ ' ' :: joinSp ws

/-- Common body of `preprocess_question` in both variants, parameterized
by the character class kept by the final `re.sub`.  Mirrors, in order:
`processed = question.lower().strip()`,
`processed = ' '.join(processed.split())`,
`processed = re.sub(r'[^...]', '', processed)`. -/
def pyNormalize (allowed : Char → Bool) (question : List Char) : List Char :=
  (joinSp (splitWs (stripL (question.map Char.toLower)))).filter allowed

/-- JSON values, the shape of a parsed Gemini API response.  Numbers are
modelled at integral scope; no claim inspects a numeric field. -/
inductive JValue where
  | null
  | bool (b : Bool)
  | num (n : Int)
  | str (s : String)
  | arr (elems : List JValue)
  | obj (fields : List (String × JValue))

/-- Python truthiness, as used by `if candidates:` and `if parts:`. -/
def truthy : JValue → Bool
  | .null => false
  | .bool b => b
  | .num n => decide (n ≠ 0)
  | .str s => !s.isEmpty
  | .arr xs => !xs.isEmpty
  | .obj fs => !fs.isEmpty

/-- Python `dict.get(k, default)`.  Dicts are association lists with
distinct keys; lookup returns the first binding. -/
def dictGetD (d : List (String × JValue)) (k : String) (dflt : JValue) : JValue :=
  (List.lookup k d).getD dflt

/-- Python `k in dict`. -/
def hasKey (d : List (String × JValue)) (k : String) : Bool :=
  (List.lookup k d).isSome

/-- Python `v.get(k, default)` on a dynamic value: an `AttributeError`
unless `v` is a dict.  The exception message strings here and below
abstract the interpreter's message text. -/
def pyGetMethod (v : JValue) (k : String) (dflt : JValue) : Except String JValue :=
  match v with
  | .obj fs => .ok (dictGetD fs k dflt)
  | _ => .error "AttributeError"

/-- Python `v[0]` on a dynamic value: first element of a list, a
one-character string for a string, `IndexError` when empty, `KeyError`
for a string-keyed dict, `TypeError` otherwise. -/
def pyIndexFirst : JValue → Except String JValue
  | .arr (x :: _) => .ok x
  | .arr [] => .error "IndexError"
  | .str s =>
    match s.data with
    | c :: _ => .ok (.str ⟨[c]⟩)
    | [] => .error "IndexError"
  | .obj _ => .error "KeyError"
  | _ => .error "TypeError"

/-- Python `v.strip()` on a dynamic value: `AttributeError` unless a
string. -/
def pyStripMethod : JValue → Except String String
  | .str s => .ok (stripStr s)
  | _ => .error "AttributeError"

/-- Python `k in v` on a dynamic value: key membership for a dict,
element equality for a list, substring test for a string, `TypeError`
otherwise. -/
def pyContainsKey (v : JValue) (k : String) : Except String Bool :=
  match v with
  | .obj fs => .ok (hasKey fs k)
  | .arr xs => .ok (xs.any (fun x => match x with | .str s => s == k | _ => false))
  | .str s => .ok (decide (List.IsInfix k.data s.data))
  | _ => .error "TypeError"

/-- Python `v[k]` with a string key. -/
def pySubscript (v : JValue) (k : String) : Except String JValue :=
  match v with
  | .obj fs =>
    match List.lookup k fs with
    | some x => .ok x
    | none => .error "KeyError"
  | _ => .error "TypeError"

/-- Python `str(v)` as used by the f-string `f"Error: {...}"`.  The
only case exercised in this repository is a string payload (`str(e)`);
the container cases abstract Python's repr-based rendering. -/
def pyStr : JValue → String
  | .str s => s
  | .num n => toString n
  | .bool true => "True"
  | .bool false => "False"
  | .null => "None"
  | .arr _ => "<list instance>"
  | .obj _ => "<dict instance>"

/-- The body of the `try:` block of `extract_answer` (identical logic in
both variants): `candidates = response.get('candidates', [])`;
`if candidates:`; the chain down to `parts[0].get('text', '').strip()`.
Returns `some text` when the code reaches the `return` inside the
`try`, `none` when it falls through to the closing fallback `return`,
and an exception when a dynamic operation raises (caught by the bare
`except:`). -/
def extractTry (resp : JValue) : Except String (Option String) := do
  let candidates ← pyGetMethod resp "candidates" (.arr [])
  if truthy candidates then
    let c0 ← pyIndexFirst candidates
    let content ← pyGetMethod c0 "content" (.obj [])
    let parts ← pyGetMethod content "parts" (.arr [])
    if truthy parts then
      let p0 ← pyIndexFirst parts
      let t ← pyGetMethod p0 "text" (.str "")
      let s ← pyStripMethod t
      pure (some s)
    else
      pure none
  else
    pure none

/-- Common body of `extract_answer`, parameterized by the fallback
string of the final `return` (the one line on which the two variants
differ).  A result `Except.error` models an exception escaping
`extract_answer` itself (possible only for a non-dict argument, whose
`"error" in response` / `response['error']` run outside the `try`). -/
def extractAnswerWith (absentMsg : String) (resp : JValue) : Except String String := do
  let hasErr ← pyContainsKey resp "error"
  if hasErr then
    let v ← pySubscript resp "error"
    pure ("Error: " ++ pyStr v)
  else
    match extractTry resp with
    | .ok (some s) => pure s
    | .ok none => pure absentMsg
    | .error _ => pure "Unable to parse response from Gemini"

/-- Outcome of the one `requests.post(...)` exchange, the external
transport boundary: either the post call itself raises (network error,
timeout) with message `msg`, or a reply arrives with a status code, a
reason phrase, and a body that parses as JSON or raises on `.json()`. -/
inductive NetOutcome where
  | exn (msg : String)
  | reply (status : Nat) (reason : String) (body : Except String JValue)

/-- Message of the `requests` `HTTPError` raised by
`response.raise_for_status()`. -/
def httpStatusMsg (status : Nat) (reason url : String) : String :=
  if status < 500 then
    toString status ++ " Client Error: " ++ reason ++ " for url: " ++ url
  else
    toString status ++ " Server Error: " ++ reason ++ " for url: " ++ url

/-- Common body of `query_llm` in both variants: try posting; on any
raised exception `e` (network failure, `raise_for_status` on a 4xx/5xx
status, JSON decoding) return `{"error": str(e)}`; otherwise return the
parsed body unmodified.  (The request payload with the prompt and the
fixed generation parameters is carried to the transport and does not
influence this function's result; it is not modelled.) -/
def queryLLMWith (url : String) (outcome : NetOutcome) : JValue :=
  match outcome with
  | .exn msg => .obj [("error", .str msg)]
  | .reply status reason body =>
    if 400 ≤ status ∧ status ≤ 599 then
      .obj [("error", .str (httpStatusMsg status reason url))]
    else
      match body with
      | .ok j => j
      | .error msg => .obj [("error", .str msg)]

namespace LLMQACLI

/-- Source `LLM_QA_CLI.py`, method `preprocess_question` (lines 29-34);
the `print` of the processed question is observability only. -/
def preprocess_question (question : List Char) : List Char :=
  pyNormalize allowedCLI question

/-- Source `LLM_QA_CLI.py`, `self.model` set in `__init__` (line 27). -/
def model : String := "gemini-2.5-flash"

/-- Source `LLM_QA_CLI.py`, `self.api_url` set in `__init__` (line 26). -/
def api_url (key : String) : String :=
  "https://generativelanguage.googleapis.com/v1beta/models/gemini-2.5-flash:generateContent?key="
    ++ key

/-- Source `LLM_QA_CLI.py`, method `construct_prompt` (lines 36-41). -/
def construct_prompt (question : String) : String :=
  "You are a helpful AI assistant. Please answer the following question clearly and concisely.\n\nQuestion: "
    ++ question ++ "\n\nAnswer:"

/-- Source `LLM_QA_CLI.py`, method `query_llm` (lines 43-69); the
`question` argument only feeds the request payload. -/
def query_llm (key : String) (question : String) (outcome : NetOutcome) : JValue :=
  queryLLMWith (api_url key) outcome

/-- Source `LLM_QA_CLI.py`, method `extract_answer` (lines 71-84); the
final fallback line reads `return "Unable to get response from Gemini"`. -/
def extract_answer (resp : JValue) : Except String String :=
  extractAnswerWith "Unable to get response from Gemini" resp

end LLMQACLI

namespace App

/-- Source `app.py`, method `preprocess_question` (lines 24-28). -/
def preprocess_question (question : List Char) : List Char :=
  pyNormalize allowedWeb question

/-- Source `app.py`, `self.model` set in `__init__` (line 22). -/
def model : String := "gemini-2.5-flash"

/-- Source `app.py`, `self.api_url` set in `__init__` (line 21). -/
def api_url (key : String) : String :=
  "https://generativelanguage.googleapis.com/v1beta/models/gemini-2.5-flash:generateContent?key="
    ++ key

/-- Source `app.py`, method `construct_prompt` (lines 30-35). -/
def construct_prompt (question : String) : String :=
  "You are a helpful AI assistant. Please answer the following question clearly and concisely.\n\nQuestion: "
    ++ question ++ "\n\nAnswer:"

/-- Source `app.py`, method `query_llm` (lines 37-57). -/
def query_llm (key : String) (question : String) (outcome : NetOutcome) : JValue :=
  queryLLMWith (api_url key) outcome

/-- Source `app.py`, method `extract_answer` (lines 59-74); the final
fallback line reads `return "Unable to get a valid response from
Gemini"`. -/
def extract_answer (resp : JValue) : Except String String :=
  extractAnswerWith "Unable to get a valid response from Gemini" resp

/-- Source `app.py`, method `ask_question` (lines 76-80): preprocess,
query, extract, returning `(processed_question, answer)`.  An exception
escaping `extract_answer` propagates to the route handler. -/
def ask_question (key : String) (question : String) (outcome : NetOutcome) :
    Except String (String × String) := do
  let processed := String.mk (preprocess_question question.data)
  let response := query_llm key processed outcome
  let answer ← extract_answer response
  pure (processed, answer)

/-- Source `app.py`, route handler `ask` (lines 97-119).  `configured`
models `qa_system is not None`; `data` the parsed JSON request body (a
JSON object; the claims quantify over its fields); `now` the formatted
timestamp.  Result: status code, response body, and whether
`ask_question` (hence `query_llm`) was invoked.  An `Except.error`
models an exception escaping the handler (only possible from `.strip()`
on a non-string `question` value, which runs before the `try:`). -/
def ask (configured : Bool) (key : String) (data : List (String × JValue))
    (outcome : NetOutcome) (now : String) : Except String (Nat × JValue × Bool) :=
  if !configured then
    .ok (500, .obj [("error", .str "API key not configured.")], false)
  else
    match dictGetD data "question" (.str "") with
    | .str s =>
      let question := stripStr s
      if question = "" then
        .ok (400, .obj [("error", .str "Please enter a question")], false)
      else
        match ask_question key question outcome with
        | .ok pa =>
          .ok (200, .obj [("original_question", .str question),
                          ("processed_question", .str pa.1),
                          ("answer", .str pa.2),
                          ("model", .str "Gemini Turbo"),
                          ("timestamp", .str now)], true)
        | .error e => .ok (500, .obj [("error", .str e)], true)
    | _ => .error "AttributeError"

/-- Source `app.py`, route handler `health` (lines 122-128). -/
def health (configured : Bool) : JValue :=
  .obj [("status", .str "ok"), ("model", .str "Gemini Turbo"),
        ("api_configured", .bool configured)]

end App

-- Sanity checks against the sources' observable behavior.
example : LLMQACLI.preprocess_question "  What is 2+2?  ".toList
    = "what is 2+2?".toList := by decide
example : App.preprocess_question "  What is 2+2?  ".toList
    = "what is 22?".toList := by decide
example : LLMQACLI.preprocess_question "a @ b".toList = "a  b".toList := by decide
example : LLMQACLI.preprocess_question "a  b".toList = "a b".toList := by decide
example : App.preprocess_question "a @ b".toList = "a  b".toList := by decide
example : App.extract_answer (.obj [("error", .str "x")]) = .ok "Error: x" := rfl
example : App.extract_answer (.obj []) = .ok "Unable to get a valid response from Gemini" := rfl
example : LLMQACLI.extract_answer (.obj []) = .ok "Unable to get response from Gemini" := rfl
example : App.extract_answer
    (.obj [("candidates", .arr [.obj [("content",
      .obj [("parts", .arr [.obj [("text", .str " hi ")]])])]])]) = .ok "hi" := rfl
example : App.extract_answer
    (.obj [("candidates", .arr [.obj [("content",
      .obj [("parts", .arr [.obj []])])]])]) = .ok "" := rfl
example : App.extract_answer (.obj [("candidates", .num 3)])
    = .ok "Unable to parse response from Gemini" := rfl


-- ======================================================================
-- Helper lemmas
-- ======================================================================

theorem char_toNat_ofNat_valid (n : Nat) (h : n.isValidChar) :
    (Char.ofNat n).toNat = n := by
  simp [Char.ofNat, h, Char.ofNatAux, Char.toNat, UInt32.toNat, BitVec.toNat_ofNatLt]

/-- Case analysis for `Char.toLower`: either the character is untouched,
or it is an ASCII capital letter and `toLower` adds 32 to its code. -/
theorem toLower_spec (c : Char) :
    (Char.toLower c = c ∧ ¬(65 ≤ c.toNat ∧ c.toNat ≤ 90)) ∨
    (65 ≤ c.toNat ∧ c.toNat ≤ 90 ∧ (Char.toLower c).toNat = c.toNat + 32) := by
  unfold Char.toLower
  by_cases h : c.toNat ≥ 65 ∧ c.toNat ≤ 90
  · right
    refine ⟨h.1, h.2, ?_⟩
    rw [if_pos h]
    exact char_toNat_ofNat_valid _ (Or.inl (by omega))
  · left
    rw [if_neg h]
    exact ⟨rfl, fun hc => h ⟨hc.1, hc.2⟩⟩

theorem toLower_toLower (c : Char) :
    (Char.toLower c).toLower = Char.toLower c := by
  rcases toLower_spec c with ⟨he, _⟩ | ⟨_, _, hn⟩
  · rw [he]; exact he
  · rcases toLower_spec (Char.toLower c) with ⟨he2, _⟩ | ⟨h65, h90, _⟩
    · exact he2
    · omega

theorem isPySpace_toLower (c : Char) :
    isPySpace (Char.toLower c) = isPySpace c := by
  rcases toLower_spec c with ⟨he, _⟩ | ⟨h65, h90, hn⟩
  · rw [he]
  · simp only [isPySpace, decide_eq_decide]
    omega

/-- Every word produced by `splitWs` is nonempty and whitespace-free. -/
theorem splitWsAux_good : ∀ (l acc : List Char),
    (∀ c ∈ acc, isPySpace c = false) →
    ∀ t ∈ splitWsAux l acc, t ≠ [] ∧ ∀ c ∈ t, isPySpace c = false := by
  intro l
  induction l with
  | nil =>
    intro acc hacc t ht
    simp only [splitWsAux] at ht
    by_cases h : acc.isEmpty
    · simp [h] at ht
    · have h' : acc.isEmpty = false := by simpa using h
      simp [h'] at ht
      subst ht
      refine ⟨by simpa using fun h2 => h (by simp [h2]), ?_⟩
      intro c hc
      exact hacc c (List.mem_reverse.mp hc)
  | cons d cs ih =>
    intro acc hacc t ht
    simp only [splitWsAux] at ht
    by_cases hsp : isPySpace d
    · rw [if_pos hsp] at ht
      by_cases h : acc.isEmpty
      · rw [if_pos h] at ht
        exact ih [] (by simp) t ht
      · rw [if_neg h] at ht
        rcases List.mem_cons.mp ht with h1 | h2
        · subst h1
          refine ⟨by simpa using fun h2 => h (by simp [h2]), ?_⟩
          intro c hc
          exact hacc c (List.mem_reverse.mp hc)
        · exact ih [] (by simp) t h2
    · rw [if_neg hsp] at ht
      refine ih (d :: acc) ?_ t ht
      intro c hc
      rcases List.mem_cons.mp hc with h1 | h2
      · subst h1; simpa using hsp
      · exact hacc c h2

/-- Characters of the words of `splitWsAux` come from the input or the
accumulator. -/
theorem splitWsAux_subset : ∀ (l acc t : List Char),
    t ∈ splitWsAux l acc → ∀ c ∈ t, c ∈ l ∨ c ∈ acc := by
  intro l
  induction l with
  | nil =>
    intro acc t ht c hc
    simp only [splitWsAux] at ht
    by_cases h : acc.isEmpty
    · simp [h] at ht
    · have h' : acc.isEmpty = false := by simpa using h
      simp [h'] at ht
      subst ht
      exact Or.inr (List.mem_reverse.mp hc)
  | cons d cs ih =>
    intro acc t ht c hc
    simp only [splitWsAux] at ht
    by_cases hsp : isPySpace d
    · rw [if_pos hsp] at ht
      by_cases h : acc.isEmpty
      · rw [if_pos h] at ht
        rcases ih [] t ht c hc with h1 | h2
        · exact Or.inl (List.mem_cons_of_mem _ h1)
        · simp at h2
      · rw [if_neg h] at ht
        rcases List.mem_cons.mp ht with h1 | h2
        · subst h1
          exact Or.inr (List.mem_reverse.mp hc)
        · rcases ih [] t h2 c hc with h1 | h1
          · exact Or.inl (List.mem_cons_of_mem _ h1)
          · simp at h1
    · rw [if_neg hsp] at ht
      rcases ih (d :: acc) t ht c hc with h1 | h1
      · exact Or.inl (List.mem_cons_of_mem _ h1)
      · rcases List.mem_cons.mp h1 with h2 | h2
        · exact Or.inl (h2 ▸ List.mem_cons_self _ _)
        · exact Or.inr h2

/-- Characters of `' '.join(ws)` come from the words or are the space. -/
theorem mem_joinSp : ∀ (ws : List (List Char)) (c : Char),
    c ∈ joinSp ws → (∃ t ∈ ws, c ∈ t) ∨ c = ' ' := by
  intro ws
  induction ws with
  | nil => intro c hc; simp [joinSp] at hc
  | cons w ws ih =>
    intro c hc
    cases ws with
    | nil =>
      exact Or.inl ⟨w, List.mem_singleton_self w, by simpa [joinSp] using hc⟩
    | cons w2 ws2 =>
      simp only [joinSp, List.mem_append, List.mem_cons] at hc
      rcases hc with h1 | h2 | h3
      · exact Or.inl ⟨w, List.mem_cons_self _ _, h1⟩
      · exact Or.inr h2
      · rcases ih c h3 with ⟨t, ht, hct⟩ | hsp
        · exact Or.inl ⟨t, List.mem_cons_of_mem _ ht, hct⟩
        · exact Or.inr hsp

/-- Consuming a whitespace-free word accumulates it reversed. -/
theorem splitWsAux_token : ∀ (w : List Char), (∀ c ∈ w, isPySpace c = false) →
    ∀ (rest acc : List Char),
    splitWsAux (w ++ rest) acc = splitWsAux rest (w.reverse ++ acc) := by
  intro w
  induction w with
  | nil => intro _ rest acc; simp
  | cons c w2 ih =>
    intro hw rest acc
    have hc : isPySpace c = false := hw c (List.mem_cons_self _ _)
    simp only [List.cons_append, splitWsAux, hc, Bool.false_eq_true, if_false, List.append_eq]
    rw [ih (fun d hd => hw d (List.mem_cons_of_mem _ hd)) rest (c :: acc)]
    simp

/-- On all-whitespace input the splitter just flushes the accumulator. -/
theorem splitWsAux_allspace : ∀ (s : List Char), (∀ c ∈ s, isPySpace c = true) →
    ∀ acc, splitWsAux s acc = if acc.isEmpty then [] else [acc.reverse] := by
  intro s
  induction s with
  | nil => intro _ acc; rfl
  | cons c s2 ih =>
    intro hs acc
    have hc : isPySpace c = true := hs c (List.mem_cons_self _ _)
    have ihs := ih (fun d hd => hs d (List.mem_cons_of_mem _ hd))
    simp only [splitWsAux, hc, if_true]
    by_cases h : acc.isEmpty
    · simp [h, ihs]
    · have h' : acc.isEmpty = false := by simpa using h
      simp [h', ihs]

/-- Trailing whitespace does not change the split. -/
theorem splitWsAux_append_spaces : ∀ (l s : List Char),
    (∀ c ∈ s, isPySpace c = true) →
    ∀ acc, splitWsAux (l ++ s) acc = splitWsAux l acc := by
  intro l s hs
  induction l with
  | nil =>
    intro acc
    simpa [splitWsAux] using splitWsAux_allspace s hs acc
  | cons c l2 ih =>
    intro acc
    simp only [List.cons_append, splitWsAux]
    by_cases hc : isPySpace c
    · simp [hc, ih]
    · have hc' : isPySpace c = false := by simpa using hc
      simp [hc', ih]

/-- Leading whitespace does not change the split. -/
theorem splitWs_dropWhile : ∀ (l : List Char),
    splitWsAux (l.dropWhile isPySpace) [] = splitWsAux l [] := by
  intro l
  induction l with
  | nil => rfl
  | cons c l2 ih =>
    by_cases hc : isPySpace c
    · rw [List.dropWhile_cons_of_pos (by simpa using hc)]
      rw [ih]
      simp [splitWsAux, hc]
    · rw [List.dropWhile_cons_of_neg (by simpa using hc)]

/-- Python `strip()` does not change the result of `split()`. -/
theorem splitWs_stripL (l : List Char) : splitWs (stripL l) = splitWs l := by
  unfold splitWs stripL
  set m := l.dropWhile isPySpace with hm
  have hdec : m = (m.reverse.dropWhile isPySpace).reverse ++ (m.reverse.takeWhile isPySpace).reverse := by
    conv_lhs => rw [← List.reverse_reverse m, ← List.takeWhile_append_dropWhile (p := isPySpace) (l := m.reverse)]
    rw [List.reverse_append]
  have hs : ∀ c ∈ (m.reverse.takeWhile isPySpace).reverse, isPySpace c = true := by
    intro c hc
    exact List.mem_takeWhile_imp (List.mem_reverse.mp hc)
  calc splitWsAux ((m.reverse.dropWhile isPySpace).reverse) []
      = splitWsAux ((m.reverse.dropWhile isPySpace).reverse ++ (m.reverse.takeWhile isPySpace).reverse) [] := by
        rw [splitWsAux_append_spaces _ _ hs]
    _ = splitWsAux m [] := by rw [← hdec]
    _ = splitWsAux l [] := splitWs_dropWhile l

/-- Splitting is a retraction of joining on lists of good words. -/
theorem splitWs_joinSp : ∀ (ws : List (List Char)),
    (∀ t ∈ ws, t ≠ [] ∧ ∀ c ∈ t, isPySpace c = false) →
    splitWs (joinSp ws) = ws := by
  intro ws
  induction ws with
  | nil => intro _; rfl
  | cons w ws2 ih =>
    intro hws
    have hw := hws w (List.mem_cons_self _ _)
    have hwrev : w.reverse.isEmpty = false := by
      rcases w with _ | ⟨a, w2⟩
      · exact absurd rfl hw.1
      · simp
    cases ws2 with
    | nil =>
      show splitWsAux (joinSp [w]) [] = [w]
      have : joinSp [w] = w ++ [] := by simp [joinSp]
      rw [this, splitWsAux_token w hw.2 [] []]
      simp [splitWsAux, hwrev]
    | cons w2 ws3 =>
      show splitWsAux (w ++ ' ' :: joinSp (w2 :: ws3)) [] = w :: w2 :: ws3
      rw [splitWsAux_token w hw.2 _ []]
      have hsp : isPySpace ' ' = true := by decide
      simp only [splitWsAux, hsp, if_true, List.append_nil, hwrev, Bool.false_eq_true, if_false,
        List.reverse_reverse]
      have ih2 := ih (fun t ht => hws t (List.mem_cons_of_mem _ ht))
      unfold splitWs at ih2
      rw [ih2]

/-- Mapping a function that fixes every element of a list is the identity. -/
theorem map_id_of_fix {l : List Char} {f : Char → Char}
    (h : ∀ c ∈ l, f c = c) : l.map f = l := by
  induction l with
  | nil => rfl
  | cons c l2 ih =>
    simp only [List.map_cons]
    rw [h c (List.mem_cons_self _ _), ih (fun d hd => h d (List.mem_cons_of_mem _ hd))]

/-- The strip step inside the normalizer is redundant modulo splitting. -/
theorem pyNormalize_eq (allowed : Char → Bool) (l : List Char) :
    pyNormalize allowed l = (joinSp (splitWs (l.map Char.toLower))).filter allowed := by
  unfold pyNormalize
  rw [splitWs_stripL]

/-- Core algebraic fact: one application of the normalizer after two
previous applications changes nothing. -/
theorem pyNormalize_twice_idem (allowed : Char → Bool)
    (hsp : allowed ' ' = true)
    (hlow : ∀ c, allowed (Char.toLower c) = allowed c) (l : List Char) :
    pyNormalize allowed (pyNormalize allowed (pyNormalize allowed l))
      = pyNormalize allowed (pyNormalize allowed l) := by
  set y := pyNormalize allowed l with hy
  have hAllY : ∀ c ∈ y, allowed c = true := fun c hc => List.of_mem_filter hc
  -- characters appearing after lowering, splitting and rejoining y are allowed
  have hAllZ : ∀ c ∈ joinSp (splitWs (y.map Char.toLower)), allowed c = true := by
    intro c hc
    rcases mem_joinSp _ c hc with ⟨t, ht, hct⟩ | hspc
    · rcases splitWsAux_subset _ _ t ht c hct with h1 | h1
      · rcases List.mem_map.mp h1 with ⟨d, hd, rfl⟩
        rw [hlow]
        exact hAllY d hd
      · simp at h1
    · rw [hspc]; exact hsp
  set z := joinSp (splitWs (y.map Char.toLower)) with hz
  have hyy : pyNormalize allowed (pyNormalize allowed l) = z := by
    rw [← hy, pyNormalize_eq, ← hz, List.filter_eq_self.mpr hAllZ]
  rw [hyy]
  -- every character of z is fixed by toLower
  have hfix : ∀ c ∈ z, Char.toLower c = c := by
    intro c hc
    rcases mem_joinSp _ c hc with ⟨t, ht, hct⟩ | hspc
    · rcases splitWsAux_subset _ _ t ht c hct with h1 | h1
      · rcases List.mem_map.mp h1 with ⟨d, hd, rfl⟩
        exact toLower_toLower d
      · simp at h1
    · rw [hspc]; decide
  rw [pyNormalize_eq, map_id_of_fix hfix]
  have hgood : ∀ t ∈ splitWs (y.map Char.toLower), t ≠ [] ∧ ∀ c ∈ t, isPySpace c = false :=
    splitWsAux_good (y.map Char.toLower) [] (by simp)
  rw [splitWs_joinSp _ hgood]
  exact List.filter_eq_self.mpr hAllZ

theorem allowedCLI_toLower (c : Char) :
    allowedCLI (Char.toLower c) = allowedCLI c := by
  rcases toLower_spec c with ⟨he, _⟩ | ⟨h65, h90, hn⟩
  · rw [he]
  · have h1 : isPyWord c = true := by
      simp only [isPyWord, decide_eq_true_eq]; omega
    have h2 : isPyWord (Char.toLower c) = true := by
      simp only [isPyWord, decide_eq_true_eq]; omega
    simp [allowedCLI, h1, h2]

theorem allowedWeb_toLower (c : Char) :
    allowedWeb (Char.toLower c) = allowedWeb c := by
  rcases toLower_spec c with ⟨he, _⟩ | ⟨h65, h90, hn⟩
  · rw [he]
  · have h1 : isPyWord c = true := by
      simp only [isPyWord, decide_eq_true_eq]; omega
    have h2 : isPyWord (Char.toLower c) = true := by
      simp only [isPyWord, decide_eq_true_eq]; omega
    simp [allowedWeb, h1, h2]

-- ======================================================================
-- Claim theorems
-- ======================================================================

/-- Claim C1, counterexample.  `preprocess_question` is not idempotent in
either variant: on `"a @ b"` the first pass removes the `@` after
whitespace collapsing, leaving the double space `"a  b"`, and a second
pass collapses it to `"a b"`. -/
theorem preprocess_question_idempotent_cex :
    LLMQACLI.preprocess_question (LLMQACLI.preprocess_question "a @ b".toList)
        ≠ LLMQACLI.preprocess_question "a @ b".toList ∧
    App.preprocess_question (App.preprocess_question "a @ b".toList)
        ≠ App.preprocess_question "a @ b".toList := by
  constructor <;> decide

/-- Claim C1, amended: a double application of `preprocess_question` is
idempotent — for every string q, applying the function three times
equals applying it twice — in both the CLI and the web variant; a
single application is not idempotent in general. -/
theorem preprocess_question_twice_idempotent (q : List Char) :
    (LLMQACLI.preprocess_question (LLMQACLI.preprocess_question
        (LLMQACLI.preprocess_question q))
      = LLMQACLI.preprocess_question (LLMQACLI.preprocess_question q)) ∧
    (App.preprocess_question (App.preprocess_question (App.preprocess_question q))
      = App.preprocess_question (App.preprocess_question q)) :=
  ⟨pyNormalize_twice_idem allowedCLI (by decide) allowedCLI_toLower q,
   pyNormalize_twice_idem allowedWeb (by decide) allowedWeb_toLower q⟩
/-- A character of a stripped list is a character of the list. -/
theorem mem_stripL {c : Char} {l : List Char} (h : c ∈ stripL l) : c ∈ l := by
  unfold stripL at h
  have h1 := List.mem_reverse.mp h
  have h2 := (List.dropWhile_sublist _).mem h1
  have h3 := List.mem_reverse.mp h2
  exact (List.dropWhile_sublist _).mem h3

/-- Claim C4: in each variant, every character of the normalizer's
output lies in the variant's allowed set (`\w`, whitespace, `? . , !`,
plus `+ - * /` for the CLI and `-` for the web variant); the output on
the empty string and on strings of only disallowed characters is empty.
Totality (always returning a string) is inherent in the definition. -/
theorem preprocess_question_allowed_output :
    (∀ (q : List Char) (c : Char),
        c ∈ LLMQACLI.preprocess_question q → allowedCLI c = true) ∧
    (∀ (q : List Char) (c : Char),
        c ∈ App.preprocess_question q → allowedWeb c = true) ∧
    LLMQACLI.preprocess_question [] = [] ∧
    App.preprocess_question [] = [] ∧
    LLMQACLI.preprocess_question "@#$%^&".toList = [] ∧
    App.preprocess_question "@#$%^&".toList = [] := by
  refine ⟨?_, ?_, by decide, by decide, by decide, by decide⟩
  · intro q c hc
    exact List.of_mem_filter hc
  · intro q c hc
    exact List.of_mem_filter hc

/-- Witness for C4 at a concrete input and character. -/
theorem preprocess_question_allowed_output_witness :
    'a' ∈ LLMQACLI.preprocess_question "a".toList ∧ allowedCLI 'a' = true ∧
    'a' ∈ App.preprocess_question "a".toList ∧ allowedWeb 'a' = true :=
  ⟨by decide, preprocess_question_allowed_output.1 "a".toList 'a' (by decide),
   by decide, preprocess_question_allowed_output.2.1 "a".toList 'a' (by decide)⟩

/-- An infix occurrence at the data level, read off a string equation. -/
theorem isInfix_data_of_eq (w a b c : String) (h : w = a ++ b ++ c) :
    List.IsInfix b.data w.data := by
  subst h
  exact ⟨a.data, c.data, by simp [String.data_append]⟩

/-- Claim C5: `construct_prompt` is the fixed template around its input
(identically in both variants), so equal inputs give identical prompts,
and every prompt contains the literal substrings `Question:` and
`Answer:`. -/
theorem construct_prompt_spec (q : String) :
    LLMQACLI.construct_prompt q
      = "You are a helpful AI assistant. Please answer the following question clearly and concisely.\n\nQuestion: "
        ++ q ++ "\n\nAnswer:" ∧
    App.construct_prompt q = LLMQACLI.construct_prompt q ∧
    List.IsInfix "Question:".data (LLMQACLI.construct_prompt q).data ∧
    List.IsInfix "Answer:".data (LLMQACLI.construct_prompt q).data := by
  refine ⟨rfl, rfl, ?_, ?_⟩
  · refine isInfix_data_of_eq _
      "You are a helpful AI assistant. Please answer the following question clearly and concisely.\n\n"
      "Question:" (" " ++ q ++ "\n\nAnswer:") ?_
    have hsplit :
        ("You are a helpful AI assistant. Please answer the following question clearly and concisely.\n\nQuestion: " : String)
          = "You are a helpful AI assistant. Please answer the following question clearly and concisely.\n\n"
            ++ "Question:" ++ " " := by decide
    show LLMQACLI.construct_prompt q = _
    rw [LLMQACLI.construct_prompt, hsplit]
    simp only [String.append_assoc]
  · refine isInfix_data_of_eq _
      ("You are a helpful AI assistant. Please answer the following question clearly and concisely.\n\nQuestion: "
        ++ q ++ "\n\n") "Answer:" "" ?_
    have hsplit : ("\n\nAnswer:" : String) = "\n\n" ++ "Answer:" ++ "" := by decide
    show LLMQACLI.construct_prompt q = _
    rw [LLMQACLI.construct_prompt, hsplit]
    simp only [String.append_assoc]
/-- The CLI and web allowed sets agree away from the characters
`+ * /`. -/
theorem allowed_eq_of_not_arith (c : Char)
    (h : ¬(c = '+' ∨ c = '*' ∨ c = '/')) : allowedCLI c = allowedWeb c := by
  have hd : (c = '?' ∨ c = '.' ∨ c = ',' ∨ c = '!' ∨
             c = '+' ∨ c = '-' ∨ c = '*' ∨ c = '/')
      ↔ (c = '?' ∨ c = '.' ∨ c = ',' ∨ c = '!' ∨ c = '-') := by
    constructor
    · rintro (h1 | h1 | h1 | h1 | h1 | h1 | h1 | h1) <;> tauto
    · tauto
  simp only [allowedCLI, allowedWeb, decide_eq_decide.mpr hd]

/-- Lowercasing cannot produce one of `+ * /`. -/
theorem toLower_not_arith (d : Char) (hd : ¬(d = '+' ∨ d = '*' ∨ d = '/')) :
    ¬(Char.toLower d = '+' ∨ Char.toLower d = '*' ∨ Char.toLower d = '/') := by
  rcases toLower_spec d with ⟨he, _⟩ | ⟨h65, h90, hn⟩
  · rw [he]; exact hd
  · rintro (hc | hc | hc) <;>
      (first
        | (have h43 : (Char.toLower d).toNat = 43 := by rw [hc]; decide
           omega)
        | (have h42 : (Char.toLower d).toNat = 42 := by rw [hc]; decide
           omega)
        | (have h47 : (Char.toLower d).toNat = 47 := by rw [hc]; decide
           omega))

/-- Claim C9: the two normalizers differ exactly in the punctuation
`+ * /`: on any input without those characters they agree, the CLI
keeps all of `+ - * /` while the web variant keeps only `-`, and on
`"  What is 2+2?  "` the CLI yields `"what is 2+2?"` while the web
variant yields `"what is 22?"`. -/
theorem preprocess_question_variants :
    (∀ q : List Char, (∀ c ∈ q, ¬(c = '+' ∨ c = '*' ∨ c = '/')) →
        LLMQACLI.preprocess_question q = App.preprocess_question q) ∧
    LLMQACLI.preprocess_question "+-*/".toList = "+-*/".toList ∧
    App.preprocess_question "+-*/".toList = "-".toList ∧
    LLMQACLI.preprocess_question "  What is 2+2?  ".toList = "what is 2+2?".toList ∧
    App.preprocess_question "  What is 2+2?  ".toList = "what is 22?".toList := by
  refine ⟨?_, by decide, by decide, by decide, by decide⟩
  intro q hq
  show pyNormalize allowedCLI q = pyNormalize allowedWeb q
  rw [pyNormalize_eq, pyNormalize_eq]
  apply List.filter_congr
  intro c hc
  apply allowed_eq_of_not_arith
  rcases mem_joinSp _ c hc with ⟨t, ht, hct⟩ | hspc
  · rcases splitWsAux_subset _ _ t ht c hct with h1 | h1
    · rcases List.mem_map.mp h1 with ⟨d, hd2, rfl⟩
      exact toLower_not_arith d (hq d hd2)
    · simp at h1
  · subst hspc; decide

/-- Witness for C9 at a concrete arithmetic-free input. -/
theorem preprocess_question_variants_witness :
    (∀ c ∈ "Ab c".toList, ¬(c = '+' ∨ c = '*' ∨ c = '/')) ∧
    LLMQACLI.preprocess_question "Ab c".toList
      = App.preprocess_question "Ab c".toList :=
  ⟨by decide, preprocess_question_variants.1 "Ab c".toList (by decide)⟩
/-- Claim C6: on a response dict with an `error` key bound to message m,
`extract_answer` returns `Error: ` followed by m, in both variants,
regardless of any other fields. -/
theorem extract_answer_error_branch (fs : List (String × JValue)) (m : String)
    (h : List.lookup "error" fs = some (.str m)) :
    LLMQACLI.extract_answer (.obj fs) = .ok ("Error: " ++ m) ∧
    App.extract_answer (.obj fs) = .ok ("Error: " ++ m) := by
  constructor <;>
    simp [LLMQACLI.extract_answer, App.extract_answer, extractAnswerWith,
          pyContainsKey, hasKey, h, pySubscript, pyStr, Bind.bind, Except.bind, pure,
          Except.pure]

/-- Witness for C6 at the response of the spec's test vector. -/
theorem extract_answer_error_branch_witness :
    List.lookup "error" [("error", JValue.str "x")] = some (.str "x") ∧
    LLMQACLI.extract_answer (.obj [("error", .str "x")]) = .ok "Error: x" ∧
    App.extract_answer (.obj [("error", .str "x")]) = .ok "Error: x" :=
  ⟨rfl, (extract_answer_error_branch [("error", .str "x")] "x" rfl).1,
        (extract_answer_error_branch [("error", .str "x")] "x" rfl).2⟩
/-- Claim C7: on a well-shaped response whose first candidate's content
has a first part with text t, `extract_answer` returns t stripped of
surrounding whitespace, in both variants; further candidates (`cs`),
further parts (`ps`), extra fields of the first part (`pf`) and extra
top-level fields (`rest`, without an `error` key) are never consulted. -/
theorem extract_answer_success_path (t : String) (pf rest : List (String × JValue))
    (ps cs : List JValue)
    (h : List.lookup "error" rest = none) :
    LLMQACLI.extract_answer (.obj (("candidates",
        .arr (.obj [("content", .obj [("parts",
          .arr (.obj (("text", .str t) :: pf) :: ps))])] :: cs)) :: rest))
      = .ok (stripStr t) ∧
    App.extract_answer (.obj (("candidates",
        .arr (.obj [("content", .obj [("parts",
          .arr (.obj (("text", .str t) :: pf) :: ps))])] :: cs)) :: rest))
      = .ok (stripStr t) := by
  constructor <;>
    simp [LLMQACLI.extract_answer, App.extract_answer, extractAnswerWith,
          pyContainsKey, hasKey, List.lookup_cons, h, extractTry, pyGetMethod,
          dictGetD, truthy, pyIndexFirst, pyStripMethod, Bind.bind, Except.bind,
          pure, Except.pure]

/-- Witness for C7 at the spec's test vector, trimming to `"hi"`. -/
theorem extract_answer_success_path_witness :
    List.lookup "error" ([] : List (String × JValue)) = none ∧
    LLMQACLI.extract_answer (.obj [("candidates", .arr [.obj [("content",
        .obj [("parts", .arr [.obj [("text", .str " hi ")]])])]])]) = .ok "hi" ∧
    App.extract_answer (.obj [("candidates", .arr [.obj [("content",
        .obj [("parts", .arr [.obj [("text", .str " hi ")]])])]])]) = .ok "hi" :=
  ⟨rfl, (extract_answer_success_path " hi " [] [] [] [] rfl).1,
        (extract_answer_success_path " hi " [] [] [] [] rfl).2⟩
/-- On an error-free dict the extractor reduces to the classification of
its `try:` body. -/
theorem extractAnswerWith_obj (msg : String) (fs : List (String × JValue))
    (h : hasKey fs "error" = false) :
    extractAnswerWith msg (.obj fs)
      = match extractTry (.obj fs) with
        | .ok (some s) => .ok s
        | .ok none => .ok msg
        | .error _ => .ok "Unable to parse response from Gemini" := by
  simp [extractAnswerWith, pyContainsKey, h, Bind.bind, Except.bind, pure, Except.pure]

/-- Claim C2, counterexample.  At the malformed response `\x7b\x7d` the
CLI variant returns `"Unable to get response from Gemini"`, which is
neither of the two fallback strings named by the claim; and when the
first part merely lacks the `text` field, both variants return the
empty string (the default `''` stripped), not a fallback. -/
theorem extract_answer_fallback_cex :
    LLMQACLI.extract_answer (.obj []) = .ok "Unable to get response from Gemini" ∧
    "Unable to get response from Gemini" ≠ "Unable to get a valid response from Gemini" ∧
    "Unable to get response from Gemini" ≠ "Unable to parse response from Gemini" ∧
    App.extract_answer (.obj [("candidates", .arr [.obj [("content",
        .obj [("parts", .arr [.obj []])])]])]) = .ok "" ∧
    "" ≠ "Unable to get a valid response from Gemini" ∧
    "" ≠ "Unable to parse response from Gemini" :=
  ⟨rfl, by decide, by decide, rfl, by decide, by decide⟩

/-- Claim C2, amended: for every dict response without an `error` key,
`extract_answer` never raises — it always returns a string; when the
access path breaks by absence or emptiness before the text step it
returns the absence fallback (`"Unable to get response from Gemini"`
for the CLI, `"Unable to get a valid response from Gemini"` for the web
variant); when a step raises a structural/type error it returns
`"Unable to parse response from Gemini"`; and when the path reaches the
text lookup it returns the (possibly defaulted-to-empty) text,
stripped. -/
theorem extract_answer_fallback_amended (fs : List (String × JValue))
    (h : hasKey fs "error" = false) :
    (∃ r, LLMQACLI.extract_answer (.obj fs) = .ok r) ∧
    (∃ r, App.extract_answer (.obj fs) = .ok r) ∧
    (extractTry (.obj fs) = .ok none →
      LLMQACLI.extract_answer (.obj fs) = .ok "Unable to get response from Gemini" ∧
      App.extract_answer (.obj fs) = .ok "Unable to get a valid response from Gemini") ∧
    (∀ e, extractTry (.obj fs) = .error e →
      LLMQACLI.extract_answer (.obj fs) = .ok "Unable to parse response from Gemini" ∧
      App.extract_answer (.obj fs) = .ok "Unable to parse response from Gemini") ∧
    (∀ s, extractTry (.obj fs) = .ok (some s) →
      LLMQACLI.extract_answer (.obj fs) = .ok s ∧
      App.extract_answer (.obj fs) = .ok s) := by
  have h1 := extractAnswerWith_obj "Unable to get response from Gemini" fs h
  have h2 := extractAnswerWith_obj "Unable to get a valid response from Gemini" fs h
  refine ⟨?_, ?_, ?_, ?_, ?_⟩
  · rcases he : extractTry (.obj fs) with e | o
    · exact ⟨"Unable to parse response from Gemini",
        by simp only [LLMQACLI.extract_answer, h1, he]⟩
    · rcases o with _ | s
      · exact ⟨"Unable to get response from Gemini",
          by simp only [LLMQACLI.extract_answer, h1, he]⟩
      · exact ⟨s, by simp only [LLMQACLI.extract_answer, h1, he]⟩
  · rcases he : extractTry (.obj fs) with e | o
    · exact ⟨"Unable to parse response from Gemini",
        by simp only [App.extract_answer, h2, he]⟩
    · rcases o with _ | s
      · exact ⟨"Unable to get a valid response from Gemini",
          by simp only [App.extract_answer, h2, he]⟩
      · exact ⟨s, by simp only [App.extract_answer, h2, he]⟩
  · intro he
    exact ⟨by simp only [LLMQACLI.extract_answer, h1, he],
           by simp only [App.extract_answer, h2, he]⟩
  · intro e he
    exact ⟨by simp only [LLMQACLI.extract_answer, h1, he],
           by simp only [App.extract_answer, h2, he]⟩
  · intro s he
    exact ⟨by simp only [LLMQACLI.extract_answer, h1, he],
           by simp only [App.extract_answer, h2, he]⟩

/-- Witness for the amended C2 at the empty dict. -/
theorem extract_answer_fallback_amended_witness :
    hasKey ([] : List (String × JValue)) "error" = false ∧
    extractTry (.obj []) = .ok none ∧
    LLMQACLI.extract_answer (.obj []) = .ok "Unable to get response from Gemini" ∧
    App.extract_answer (.obj []) = .ok "Unable to get a valid response from Gemini" :=
  ⟨rfl, rfl, ((extract_answer_fallback_amended [] rfl).2.2.1 rfl).1,
   ((extract_answer_fallback_amended [] rfl).2.2.1 rfl).2⟩
/-- Claim C3: `query_llm` never propagates an exception to its caller:
for every transport outcome the result is either the tagged failure
dict with a message string, or — exactly when the post succeeded with a
non-error status and a JSON body — the parsed body unmodified.  The two
variants' adapters behave identically. -/
theorem query_llm_no_raise (key question : String) (outcome : NetOutcome) :
    ((∃ msg, LLMQACLI.query_llm key question outcome = .obj [("error", .str msg)]) ∨
     (∃ status reason j, outcome = .reply status reason (.ok j) ∧
        LLMQACLI.query_llm key question outcome = j)) ∧
    (∀ msg, outcome = .exn msg →
        LLMQACLI.query_llm key question outcome = .obj [("error", .str msg)]) ∧
    (∀ status reason j, outcome = .reply status reason (.ok j) →
        ¬(400 ≤ status ∧ status ≤ 599) →
        LLMQACLI.query_llm key question outcome = j) ∧
    App.query_llm key question outcome = LLMQACLI.query_llm key question outcome := by
  refine ⟨?_, ?_, ?_, rfl⟩
  · cases outcome with
    | exn msg => exact Or.inl ⟨msg, rfl⟩
    | reply status reason body =>
      by_cases hs : 400 ≤ status ∧ status ≤ 599
      · exact Or.inl ⟨httpStatusMsg status reason (LLMQACLI.api_url key),
          by simp [LLMQACLI.query_llm, queryLLMWith, hs]⟩
      · cases body with
        | ok j =>
          exact Or.inr ⟨status, reason, j, rfl,
            by simp [LLMQACLI.query_llm, queryLLMWith, hs]⟩
        | error msg =>
          exact Or.inl ⟨msg, by simp [LLMQACLI.query_llm, queryLLMWith, hs]⟩
  · intro msg h
    subst h
    rfl
  · intro status reason j h hns
    subst h
    simp [LLMQACLI.query_llm, queryLLMWith, hns]

/-- Witness for C3 at a network failure and at a clean 200 reply. -/
theorem query_llm_no_raise_witness :
    LLMQACLI.query_llm "k" "q" (.exn "boom") = .obj [("error", .str "boom")] ∧
    LLMQACLI.query_llm "k" "q" (.reply 200 "OK" (.ok (.obj []))) = .obj [] :=
  ⟨(query_llm_no_raise "k" "q" (.exn "boom")).2.1 "boom" rfl,
   (query_llm_no_raise "k" "q" (.reply 200 "OK" (.ok (.obj [])))).2.2.1
      200 "OK" (.obj []) rfl (by decide)⟩

/-- Claim C8, counterexample.  On an unconfigured server (the handler
checks `if not qa_system:` first) a request with an absent question is
answered with status 500, not 400 — though still with a JSON error
body and no remote call — so the unconditional 400 claim is false. -/
theorem ask_empty_question_400_cex :
    App.ask false "k" [] (.exn "e") "t"
      = .ok (500, .obj [("error", .str "API key not configured.")], false) ∧
    (500 : Nat) ≠ 400 :=
  ⟨rfl, by decide⟩

/-- Claim C8, amended: a request whose `question` field is absent (the
dict default `''` applies) or whose question strips to empty never
triggers `ask_question`/`query_llm`; when the system is configured the
handler answers with status 400 and the JSON error body, while an
unconfigured system answers 500 before the question is inspected. -/
theorem ask_empty_question_400 (configured : Bool) (key now : String)
    (data : List (String × JValue)) (outcome : NetOutcome) (s : String)
    (h1 : dictGetD data "question" (.str "") = .str s)
    (h2 : stripStr s = "") :
    (∃ st body, App.ask configured key data outcome now = .ok (st, body, false)) ∧
    (configured = true →
      App.ask configured key data outcome now
        = .ok (400, .obj [("error", .str "Please enter a question")], false)) := by
  cases configured
  · exact ⟨⟨500, .obj [("error", .str "API key not configured.")],
      by simp [App.ask]⟩, fun hc => absurd hc (by decide)⟩
  · refine ⟨⟨400, .obj [("error", .str "Please enter a question")], ?_⟩, fun _ => ?_⟩ <;>
      simp [App.ask, h1, h2]

/-- Witness for C8: an empty request body, with the system configured. -/
theorem ask_empty_question_400_witness :
    dictGetD [] "question" (.str "") = .str "" ∧ stripStr "" = "" ∧
    App.ask true "k" [] (.exn "e") "t"
      = .ok (400, .obj [("error", .str "Please enter a question")], false) :=
  ⟨rfl, rfl, (ask_empty_question_400 true "k" "t" [] (.exn "e") "" rfl rfl).2 rfl⟩
/-- Claim C10: the web variant reports the constant model string
`"Gemini Turbo"` to clients — in every 200 response of the `ask`
handler and in every `health` response — and never the configured
model name `"gemini-2.5-flash"`, which is what the request URL uses. -/
theorem web_model_reporting :
    (∀ configured : Bool, ∃ fs, App.health configured = .obj fs ∧
        List.lookup "model" fs = some (.str "Gemini Turbo")) ∧
    (∀ (configured : Bool) (key now : String) (data : List (String × JValue))
        (outcome : NetOutcome) (st : Nat) (body : JValue) (flag : Bool),
      App.ask configured key data outcome now = .ok (st, body, flag) → st = 200 →
      ∃ fs, body = .obj fs ∧ List.lookup "model" fs = some (.str "Gemini Turbo")) ∧
    "Gemini Turbo" ≠ App.model ∧
    App.model = "gemini-2.5-flash" ∧
    (∀ key, ∃ a b, (App.api_url key).data = a ++ App.model.data ++ b) := by
  refine ⟨?_, ?_, by decide, rfl, ?_⟩
  · intro configured
    exact ⟨_, rfl, by simp [List.lookup]⟩
  · intro configured key now data outcome st body flag h h200
    cases configured
    · simp [App.ask] at h
      rw [h200] at h
      exact absurd h.1 (by decide)
    · simp only [App.ask, Bool.not_true, Bool.false_eq_true, if_false] at h
      rcases hd : dictGetD data "question" (.str "") with _ | b | n | s | xs | gs
      · rw [hd] at h; exact absurd h (by simp)
      · rw [hd] at h; exact absurd h (by simp)
      · rw [hd] at h; exact absurd h (by simp)
      · rw [hd] at h
        dsimp only at h
        by_cases hq : stripStr s = ""
        · rw [if_pos hq] at h
          simp only [Except.ok.injEq, Prod.mk.injEq] at h
          exact absurd (h.1.trans h200) (by decide)
        · rw [if_neg hq] at h
          rcases ha : App.ask_question key (stripStr s) outcome with e | pa
          · rw [ha] at h
            simp only [Except.ok.injEq, Prod.mk.injEq] at h
            exact absurd (h.1.trans h200) (by decide)
          · rw [ha] at h
            simp only [Except.ok.injEq, Prod.mk.injEq] at h
            exact ⟨_, h.2.1.symm, by simp [List.lookup]⟩
      · rw [hd] at h; exact absurd h (by simp)
      · rw [hd] at h; exact absurd h (by simp)
  · intro key
    exact ⟨"https://generativelanguage.googleapis.com/v1beta/models/".data,
      (":generateContent?key=" ++ key).data, by
        show (("https://generativelanguage.googleapis.com/v1beta/models/gemini-2.5-flash:generateContent?key=" : String) ++ key).data = _
        have hsplit :
            ("https://generativelanguage.googleapis.com/v1beta/models/gemini-2.5-flash:generateContent?key=" : String)
              = "https://generativelanguage.googleapis.com/v1beta/models/"
                ++ "gemini-2.5-flash" ++ ":generateContent?key=" := by decide
        rw [hsplit]
        simp [String.data_append, App.model]⟩
/-- Witness for C10 on a concrete 200 response (the remote call fails,
so the answer is the error-prefixed string, but the handler still
returns 200 with model `"Gemini Turbo"`). -/
theorem web_model_reporting_witness :
    App.ask true "k" [("question", .str "hi")] (.exn "boom") "ts"
      = .ok (200, .obj [("original_question", .str "hi"),
                        ("processed_question", .str "hi"),
                        ("answer", .str "Error: boom"),
                        ("model", .str "Gemini Turbo"),
                        ("timestamp", .str "ts")], true) ∧
    ∃ fs, JValue.obj [("original_question", .str "hi"),
                      ("processed_question", .str "hi"),
                      ("answer", .str "Error: boom"),
                      ("model", .str "Gemini Turbo"),
                      ("timestamp", .str "ts")] = .obj fs ∧
      List.lookup "model" fs = some (.str "Gemini Turbo") :=
  ⟨rfl, web_model_reporting.2.1 true "k" "ts" [("question", .str "hi")]
      (.exn "boom") 200 _ true rfl rfl⟩
